import Mathlib

/-!
Shallow embedding of the input-validation and command-execution core of the
Restic-Restore backend (src-tauri/src/commands.rs with its error taxonomy in
error.rs and record shapes in models.rs).

Modelling conventions:
* The Unix (non-Windows) build is modelled: cfg!(windows) is false and the
  path separator is '/'.
* Rust string slices are modelled by Lean String; str::len (the UTF-8 byte
  count) is modelled by utf8Len.
* The ambient filesystem, which the source consults only through
  Path::exists inside validate_target_path, is modelled by an explicit
  oracle FsEnv that is passed to every validator so that environment
  (in)dependence is statable; only validate_target_path reads it, exactly
  as in the source.
* The external serde_json parser is kept abstract: line-oriented parsing is
  parameterised over the per-line decoding functions.
-/

set_option maxRecDepth 8000

namespace ResticRestore

/-- The NUL character, written as an escaped zero byte in the Rust source. -/
def nullChar : Char := Char.ofNat 0

/-- Unicode code points with the White_Space property, the set recognised by
Rust's char::is_whitespace, which the validators reach through str::trim. -/
def rustIsWhitespace (c : Char) : Bool :=
  decide (c.toNat = 0x09) || decide (c.toNat = 0x0A) || decide (c.toNat = 0x0B) ||
  decide (c.toNat = 0x0C) || decide (c.toNat = 0x0D) || decide (c.toNat = 0x20) ||
  decide (c.toNat = 0x85) || decide (c.toNat = 0xA0) || decide (c.toNat = 0x1680) ||
  (decide (0x2000 ≤ c.toNat) && decide (c.toNat ≤ 0x200A)) ||
  decide (c.toNat = 0x2028) || decide (c.toNat = 0x2029) || decide (c.toNat = 0x202F) ||
  decide (c.toNat = 0x205F) || decide (c.toNat = 0x3000)

/-- Rust's char::is_ascii_hexdigit: the ranges 0-9, A-F and a-f. -/
def isAsciiHexDigit (c : Char) : Bool :=
  (decide (0x30 ≤ c.toNat) && decide (c.toNat ≤ 0x39)) ||
  (decide (0x41 ≤ c.toNat) && decide (c.toNat ≤ 0x46)) ||
  (decide (0x61 ≤ c.toNat) && decide (c.toNat ≤ 0x66))

/-- ASCII restriction of Rust's char::is_alphanumeric, used by
validate_repo_id. The full Unicode Alphabetic table is external to the
repository; no claim in this development depends on the exact character
classes beyond ASCII. -/
def rustIsAlphanumeric (c : Char) : Bool :=
  (decide (0x30 ≤ c.toNat) && decide (c.toNat ≤ 0x39)) ||
  (decide (0x41 ≤ c.toNat) && decide (c.toNat ≤ 0x5A)) ||
  (decide (0x61 ≤ c.toNat) && decide (c.toNat ≤ 0x7A))

/-- Rust str::contains(char). -/
def strContainsChar (s : String) (c : Char) : Bool :=
  s.data.any (fun x => x == c)

/-- Rust s.trim().is_empty(): str::trim removes leading and trailing
whitespace, so the trimmed string is empty exactly when every character of s
is whitespace. -/
def trimIsEmpty (s : String) : Bool :=
  s.data.all rustIsWhitespace

/-- Rust str::len, the UTF-8 byte length of the string. -/
def utf8Len (s : String) : Nat :=
  (s.data.map Char.utf8Size).sum

/-- Rust str::starts_with(&str). -/
def strStartsWith (s p : String) : Bool :=
  p.data.isPrefixOf s.data

/-- Substring occurrence test over character lists, scanning every suffix;
used to model Rust str::contains(&str). -/
def listContainsSub (needle : List Char) : List Char → Bool
  | [] => needle.isPrefixOf []
  | c :: rest => needle.isPrefixOf (c :: rest) || listContainsSub needle rest

/-- Rust hay.contains(needle) for a string pattern. -/
def strContainsSub (hay needle : String) : Bool :=
  listContainsSub needle.data hay.data

/-- Helper for countMatches: scan left to right; the Nat state is the number
of characters still to be skipped after a match, so matches are counted
non-overlapping, as Rust's str::matches yields them. Intended for non-empty
needles (the source only ever counts the needle \"..\"). -/
def countMatchesAux (needle : List Char) : List Char → Nat → Nat
  | [], _ => 0
  | _ :: rest, Nat.succ k => countMatchesAux needle rest k
  | c :: rest, 0 =>
    if needle.isPrefixOf (c :: rest) then
      countMatchesAux needle rest (needle.length - 1) + 1
    else
      countMatchesAux needle rest 0

/-- Rust hay.matches(needle).count(): the number of non-overlapping
occurrences of needle in hay, scanning left to right. -/
def countMatches (hay needle : String) : Nat :=
  countMatchesAux needle.data hay.data 0

/-- The string made of all but the first n characters, used only to express
the remainder of a locator after its scheme in claim statements. -/
def strDrop (s : String) (n : Nat) : String :=
  String.mk (s.data.drop n)

/-- Rust std::path::Component for Unix paths (there is no Prefix component
on Unix). -/
inductive PathComp where
  | rootDir
  | curDir
  | parentDir
  | normal (s : String)
deriving DecidableEq

/-- The matches!(component, Component::ParentDir) test from the source. -/
def PathComp.isParentDir : PathComp → Bool
  | .parentDir => true
  | _ => false

/-- Split a character list at every '/', keeping empty segments. -/
def splitSlash : List Char → List (List Char)
  | [] => [[]]
  | c :: rest =>
    if c = '/' then
      [] :: splitSlash rest
    else
      match splitSlash rest with
      | [] => [[c]]
      | seg :: segs => (c :: seg) :: segs

/-- Interpretation of one non-empty raw path segment as a component. -/
def compOfRaw (seg : List Char) : PathComp :=
  if seg = ['.', '.'] then .parentDir else .normal (String.mk seg)

/-- Rust Path::has_root / Path::is_absolute on Unix: the path begins with a
separator. -/
def strHasRoot (s : String) : Bool :=
  match s.data with
  | c :: _ => c == '/'
  | [] => false

/-- The non-empty '/'-separated segments of the path text. -/
def rawComponents (s : String) : List (List Char) :=
  (splitSlash s.data).filter (fun seg => decide (seg ≠ []))

/-- Rust Path::components on Unix: a leading RootDir when the path begins
with '/', a CurDir only when a relative path begins with a \".\" segment,
\".\" segments dropped elsewhere, repeated separators collapsed, and every
remaining segment read as ParentDir (\"..\") or Normal. -/
def pathComponents (s : String) : List PathComp :=
  let raw := rawComponents s
  let root : List PathComp := if strHasRoot s then [.rootDir] else []
  let cur : List PathComp :=
    if strHasRoot s = false ∧ raw.head? = some ['.'] then [.curDir] else []
  root ++ cur ++ (raw.filter (fun seg => decide (seg ≠ ['.']))).map compOfRaw

/-- Remove the longest suffix of characters satisfying p. -/
def dropWhileEnd (p : Char → Bool) (l : List Char) : List Char :=
  (l.reverse.dropWhile p).reverse

/-- Rust Path::parent on Unix: none for the empty path and for the root,
otherwise the original text with the final component and any adjacent
trailing separators removed (parent of a lone relative component is the
empty path, parent of \"/x\" is the root). -/
def parentString (s : String) : Option String :=
  let t1 := dropWhileEnd (fun c => c == '/') s.data
  if t1 = [] then
    none
  else
    let t2 := dropWhileEnd (fun c => c != '/') t1
    let t3 := dropWhileEnd (fun c => c == '/') t2
    if t3 = [] then
      if t2 = [] then some "" else some "/"
    else
      some (String.mk t3)

/-- The validation and execution error taxonomy of error.rs, restricted to
the constructors reachable from the code modelled here. Payload PathBuf and
String arguments are both modelled as String. -/
inductive AppError where
  | EmptyRepositoryPath
  | InvalidRepositoryPath
  | UnsupportedProtocol (protocols : String)
  | RemotePathTooShort
  | PathTraversal
  | EmptySnapshotId
  | InvalidSnapshotId
  | SnapshotIdTooShort
  | SnapshotIdTooLong
  | SnapshotIdNotHex
  | EmptyTargetPath
  | InvalidTargetPath
  | RelativeTargetPath
  | ParentDirectoryNotFound (parent : String)
  | EmptyIncludePath
  | InvalidIncludePath
  | ExcessiveParentTraversal
  | AbsoluteIncludePath
  | EmptyRepoId
  | InvalidRepoId
  | InvalidRepoIdCharacters
  | RepoIdTooLong
  | EmptyPassword
  | InvalidPassword
  | NoIncludePaths
  | ResticExecution (msg : String)
  | ResticError (stderr : String)
  | RestoreFailed (stderr : String)
deriving DecidableEq

deriving instance DecidableEq for Except

/-- The process's view of the filesystem: the Path::exists oracle. Every
validator receives it so that environment independence can be stated; only
validate_target_path consults it, matching the source. -/
def FsEnv : Type := String → Bool

/-- The remote scheme allow-list from validate_repository_path. -/
def valid_protocols : List String :=
  ["s3:", "rest:", "sftp:", "b2:", "azure:", "gs:", "rclone:"]

/-- valid_protocols.join(\", \") as computed for the UnsupportedProtocol
payload. -/
def protocolsJoined : String :=
  String.intercalate ", " valid_protocols

/-- validate_repository_path (commands.rs lines 15-49), Unix build: the
cfg!(windows) escape hatch inside the protocol branch is closed, so an
unrecognised scheme is always rejected there. -/
def validate_repository_path (fs : FsEnv) (repo : String) : Except AppError Unit :=
  if trimIsEmpty repo then
    .error .EmptyRepositoryPath
  else if strContainsChar repo nullChar then
    .error .InvalidRepositoryPath
  else if strContainsChar repo ':' && !strStartsWith repo "C:" && !strStartsWith repo "c:" then
    if !(valid_protocols.any (fun p => strStartsWith repo p)) then
      .error (.UnsupportedProtocol protocolsJoined)
    else if utf8Len repo < 5 then
      .error .RemotePathTooShort
    else
      .ok ()
  else if (pathComponents repo).any PathComp.isParentDir then
    .error .PathTraversal
  else
    .ok ()

/-- validate_snapshot_id (commands.rs lines 51-74). -/
def validate_snapshot_id (fs : FsEnv) (snapshot_id : String) : Except AppError Unit :=
  if trimIsEmpty snapshot_id then
    .error .EmptySnapshotId
  else if strContainsChar snapshot_id nullChar then
    .error .InvalidSnapshotId
  else if utf8Len snapshot_id < 8 then
    .error .SnapshotIdTooShort
  else if utf8Len snapshot_id > 64 then
    .error .SnapshotIdTooLong
  else if !(snapshot_id.data.all isAsciiHexDigit) then
    .error .SnapshotIdNotHex
  else
    .ok ()

/-- The component loop of validate_target_path: the first ParentDir
component aborts with PathTraversal, a Normal component whose text contains
NUL aborts with InvalidTargetPath (dead in practice, since the whole string
was already scanned for NUL), other components are skipped. -/
def targetComponentCheck : List PathComp → Option AppError
  | [] => none
  | .parentDir :: _ => some .PathTraversal
  | .normal s :: rest =>
    if strContainsChar s nullChar then some .InvalidTargetPath
    else targetComponentCheck rest
  | _ :: rest => targetComponentCheck rest

/-- validate_target_path (commands.rs lines 76-114). PathBuf::from stores
the input text verbatim, so the PathBuf result is modelled by the input
string itself. -/
def validate_target_path (fs : FsEnv) (target : String) : Except AppError String :=
  if trimIsEmpty target then
    .error .EmptyTargetPath
  else if strContainsChar target nullChar then
    .error .InvalidTargetPath
  else if strHasRoot target = false then
    .error .RelativeTargetPath
  else
    match targetComponentCheck (pathComponents target) with
    | some e => .error e
    | none =>
      match parentString target with
      | some parent =>
        if fs parent = false ∧ 1 < (pathComponents parent).length then
          .error (.ParentDirectoryNotFound parent)
        else
          .ok target
      | none => .ok target

/-- validate_include_path (commands.rs lines 116-137). -/
def validate_include_path (fs : FsEnv) (include_path : String) : Except AppError Unit :=
  if trimIsEmpty include_path then
    .error .EmptyIncludePath
  else if strContainsChar include_path nullChar then
    .error .InvalidIncludePath
  else if 3 < countMatches include_path ".." then
    .error .ExcessiveParentTraversal
  else if strHasRoot include_path then
    .error .AbsoluteIncludePath
  else
    .ok ()

/-- validate_repo_id (commands.rs lines 139-158). -/
def validate_repo_id (fs : FsEnv) (repo_id : String) : Except AppError Unit :=
  if trimIsEmpty repo_id then
    .error .EmptyRepoId
  else if strContainsChar repo_id nullChar then
    .error .InvalidRepoId
  else if !(repo_id.data.all (fun c => rustIsAlphanumeric c || c == '-' || c == '_')) then
    .error .InvalidRepoIdCharacters
  else if 100 < utf8Len repo_id then
    .error .RepoIdTooLong
  else
    .ok ()

/-- validate_password (commands.rs lines 160-170); note the emptiness test
is is_empty, not trim().is_empty(). -/
def validate_password (fs : FsEnv) (password : String) : Except AppError Unit :=
  if password.data.isEmpty then
    .error .EmptyPassword
  else if strContainsChar password nullChar then
    .error .InvalidPassword
  else
    .ok ()

/-- The two error-classification modes of the Command Executor. -/
inductive ErrorHandling where
  | Strict
  | Lenient

/-- The captured result of a finished restic subprocess: exit code and the
decoded stdout and stderr texts. A zero exit code is ExitStatus::success. -/
structure ProcOutput where
  exit_code : Nat
  stdout : String
  stderr : String

/-- The fatal-marker scan of the lenient branch of run_restic_command. -/
def is_fatal_restore_stderr (stderr : String) : Bool :=
  strContainsSub stderr "repository does not exist" ||
  strContainsSub stderr "wrong password" ||
  strContainsSub stderr "unable to open repository" ||
  (strContainsSub stderr "snapshot" && strContainsSub stderr "not found")

/-- The success-with-warning text built by the lenient branch. -/
def restoredWithWarnings (stderr : String) : String :=
  "Restored with warnings:\n" ++ stderr

/-- The outcome classification of run_restic_command (commands.rs lines
352-377), given that the subprocess was spawned and waited for. -/
def classify_restic_output (error_mode : ErrorHandling) (output : ProcOutput) :
    Except AppError String :=
  if output.exit_code ≠ 0 then
    match error_mode with
    | .Strict => .error (.ResticError output.stderr)
    | .Lenient =>
      if is_fatal_restore_stderr output.stderr then
        .error (.RestoreFailed output.stderr)
      else
        .ok (restoredWithWarnings output.stderr)
  else
    .ok output.stdout

/-- A subprocess invocation under construction: std::process::Command as a
program name, an argument vector, and the added environment entries. -/
structure Cmd where
  program : String
  argv : List String
  envs : List (String × String)

/-- Command::new. -/
def Cmd.new (program : String) : Cmd :=
  ⟨program, [], []⟩

/-- Command::arg. -/
def Cmd.arg (c : Cmd) (a : String) : Cmd :=
  { c with argv := c.argv ++ [a] }

/-- Command::args. -/
def Cmd.args (c : Cmd) (as : List String) : Cmd :=
  { c with argv := c.argv ++ as }

/-- Command::env. -/
def Cmd.env (c : Cmd) (key value : String) : Cmd :=
  { c with envs := c.envs ++ [(key, value)] }

/-- The invocation built by run_restic_command (commands.rs lines 330-334):
Command::new(restic_bin).arg(\"-r\").arg(repo).args(args)
.env(\"RESTIC_PASSWORD\", password). -/
def build_restic_command (restic_bin repo password : String) (args : List String) : Cmd :=
  ((((Cmd.new restic_bin).arg "-r").arg repo).args args).env "RESTIC_PASSWORD" password

/-- The argument vector constructed by restore_selective (commands.rs lines
470-478): the fixed restore prelude extended with the flat_map of
--include pairs. -/
def restore_selective_args (snapshot_id target : String)
    (include_paths : List String) : List String :=
  let args := ["restore", snapshot_id, "--target", target]
  let include_path_refs := include_paths.flatMap (fun p => ["--include", p])
  args ++ include_path_refs

/-- Modelled from the spec: one \"--include path\" pair of arguments per
include path, preserving caller-supplied order; the spec-side shape that
restore_selective_args is compared against. -/
def includeArgPairs : List String → List String
  | [] => []
  | p :: ps => "--include" :: p :: includeArgPairs ps

/-- A JSON value as produced by the external serde_json parser. Numbers are
modelled as integers; no claim depends on number payloads. -/
inductive JsonVal where
  | null
  | bool (b : Bool)
  | num (n : Int)
  | str (s : String)
  | arr (elems : List JsonVal)
  | obj (fields : List (String × JsonVal))

/-- serde_json Value::get(&str): field lookup on an object, none on every
other value. -/
def JsonVal.get (v : JsonVal) (key : String) : Option JsonVal :=
  match v with
  | .obj fields => fields.lookup key
  | _ => none

/-- The struct_type == \"node\" comparison: a Value equals a string slice
exactly when it is that JSON string. -/
def JsonVal.isStr (v : JsonVal) (s : String) : Bool :=
  match v with
  | .str t => t == s
  | _ => false

/-- The typed file-entry record FileNode from models.rs. -/
structure FileNode where
  name : String
  path : String
  node_type : String
  size : Option Nat
  mtime : Option String

/-- Remove a single trailing carriage return, as str::lines does on the text
before each line feed. -/
def stripTrailingCR (l : List Char) : List Char :=
  match l.getLast? with
  | some c => if c = '\r' then l.dropLast else l
  | none => l

/-- Traversal for rustLines: acc holds the current line reversed. A segment
closed by a line feed has one trailing carriage return stripped; the final
segment is kept verbatim and dropped when empty. -/
def rustLinesAux : List Char → List Char → List (List Char)
  | [], acc => if acc = [] then [] else [acc.reverse]
  | c :: rest, acc =>
    if c = '\n' then
      stripTrailingCR acc.reverse :: rustLinesAux rest []
    else
      rustLinesAux rest (c :: acc)

/-- Rust str::lines: split at each line feed, also recognising a carriage
return before it, with the final line ending optional and no empty final
line. -/
def rustLines (s : String) : List String :=
  (rustLinesAux s.data []).map String.mk

/-- The line loop of browse_snapshot (commands.rs lines 503-515): skip blank
lines, parse each line as a JSON value, keep it only when its struct_type
field is the string \"node\" and it converts to a FileNode, pushing in line
order; every failure just skips the line. The serde_json entry points are
abstract parameters. -/
def browse_snapshot_collect (parse_value : String → Option JsonVal)
    (from_value : JsonVal → Option FileNode) : List String → List FileNode
  | [] => []
  | line :: rest =>
    if trimIsEmpty line then
      browse_snapshot_collect parse_value from_value rest
    else
      match parse_value line with
      | some val =>
        match val.get "struct_type" with
        | some struct_type =>
          if struct_type.isStr "node" then
            match from_value val with
            | some node => node :: browse_snapshot_collect parse_value from_value rest
            | none => browse_snapshot_collect parse_value from_value rest
          else
            browse_snapshot_collect parse_value from_value rest
        | none => browse_snapshot_collect parse_value from_value rest
      | none => browse_snapshot_collect parse_value from_value rest

/-- The stdout parsing of browse_snapshot applied to the whole response
text. -/
def browse_snapshot_parse (parse_value : String → Option JsonVal)
    (from_value : JsonVal → Option FileNode) (output : String) : List FileNode :=
  browse_snapshot_collect parse_value from_value (rustLines output)

/-- The line loop of get_snapshot_details (commands.rs lines 422-428): skip
blank lines, keep every line that deserialises as a FileNode, in line
order. -/
def snapshot_details_collect (parse_node : String → Option FileNode) :
    List String → List FileNode
  | [] => []
  | line :: rest =>
    if trimIsEmpty line then
      snapshot_details_collect parse_node rest
    else
      match parse_node line with
      | some node => node :: snapshot_details_collect parse_node rest
      | none => snapshot_details_collect parse_node rest

/-- The stdout parsing of get_snapshot_details applied to the whole response
text. -/
def get_snapshot_details_parse (parse_node : String → Option FileNode)
    (output : String) : List FileNode :=
  snapshot_details_collect parse_node (rustLines output)

/-- Modelled from the spec: the well-formed record of the expected kind
carried by one browse response line, if any — a non-blank line that parses
as JSON, is discriminated as a node record, and converts to a FileNode. -/
def browseLineRecordSpec (parse_value : String → Option JsonVal)
    (from_value : JsonVal → Option FileNode) (line : String) : Option FileNode :=
  if trimIsEmpty line then
    none
  else
    match parse_value line with
    | some val =>
      match val.get "struct_type" with
      | some struct_type =>
        if struct_type.isStr "node" then from_value val else none
      | none => none
    | none => none

/-- Modelled from the spec: the well-formed FileNode record carried by one
snapshot-detail response line, if any. -/
def detailsLineRecordSpec (parse_node : String → Option FileNode)
    (line : String) : Option FileNode :=
  if trimIsEmpty line then none else parse_node line

/-! Helper lemmas shared by the claim theorems. -/

theorem isPrefixOf_self (l : List Char) : l.isPrefixOf l = true := by
  induction l with
  | nil => rfl
  | cons c rest ih => simp [List.isPrefixOf, ih]

theorem listContainsSub_append (pre t : List Char) :
    listContainsSub t (pre ++ t) = true := by
  induction pre with
  | nil =>
    cases t with
    | nil => rfl
    | cons c rest => simp [listContainsSub, isPrefixOf_self]
  | cons c cs ih => simp [listContainsSub, ih]

theorem mem_of_strContainsChar {s : String} {c : Char}
    (h : strContainsChar s c = true) : c ∈ s.data := by
  rcases List.any_eq_true.mp h with ⟨x, hx, hbeq⟩
  rwa [eq_of_beq hbeq] at hx

theorem trimIsEmpty_eq_false_of_mem {s : String} {c : Char} (hc : c ∈ s.data)
    (hw : rustIsWhitespace c = false) : trimIsEmpty s = false := by
  cases htr : trimIsEmpty s
  · rfl
  · exact absurd (List.all_eq_true.mp htr c hc) (by simp [hw])

theorem not_ws_of_hex {c : Char} (h : isAsciiHexDigit c = true) :
    rustIsWhitespace c = false := by
  cases hw : rustIsWhitespace c
  · rfl
  · exfalso
    simp only [isAsciiHexDigit, Bool.or_eq_true, Bool.and_eq_true, decide_eq_true_eq] at h
    simp only [rustIsWhitespace, Bool.or_eq_true, Bool.and_eq_true, decide_eq_true_eq] at hw
    omega

theorem not_null_of_hex {c : Char} (h : isAsciiHexDigit c = true) :
    (c == nullChar) = false := by
  cases hb : c == nullChar
  · rfl
  · rw [eq_of_beq hb] at h
    exact absurd h (by decide)

theorem splitSlash_ne_nil (l : List Char) : splitSlash l ≠ [] := by
  cases l with
  | nil => simp [splitSlash]
  | cons c rest =>
    simp only [splitSlash]
    split
    · simp
    · split <;> simp

theorem mem_of_mem_splitSlash {l seg : List Char} (hseg : seg ∈ splitSlash l)
    {c : Char} (hc : c ∈ seg) : c ∈ l := by
  induction l generalizing seg with
  | nil =>
    simp only [splitSlash, List.mem_singleton] at hseg
    subst hseg
    exact absurd hc (List.not_mem_nil c)
  | cons a rest ih =>
    simp only [splitSlash] at hseg
    split at hseg
    · rcases List.mem_cons.mp hseg with h | h
      · subst h
        exact absurd hc (List.not_mem_nil c)
      · exact List.mem_cons_of_mem a (ih h hc)
    · split at hseg
      · next hnil => exact absurd hnil (splitSlash_ne_nil rest)
      · next s0 segs hsplit =>
        rcases List.mem_cons.mp hseg with h | h
        · subst h
          rcases List.mem_cons.mp hc with h | h
          · exact h ▸ List.mem_cons_self a rest
          · have : s0 ∈ splitSlash rest := by rw [hsplit]; exact List.mem_cons_self s0 segs
            exact List.mem_cons_of_mem a (ih this h)
        · have : seg ∈ splitSlash rest := by rw [hsplit]; exact List.mem_cons_of_mem s0 h
          exact List.mem_cons_of_mem a (ih this hc)

theorem dot_mem_of_parentDir_mem {s : String}
    (h : PathComp.parentDir ∈ pathComponents s) : '.' ∈ s.data := by
  simp only [pathComponents] at h
  rcases List.mem_append.mp h with h | h
  · rcases List.mem_append.mp h with h | h
    · split at h <;> simp at h
    · split at h <;> simp at h
  · rcases List.mem_map.mp h with ⟨seg, hseg, heq⟩
    have hdd : seg = ['.', '.'] := by
      by_contra hne
      simp [compOfRaw, hne] at heq
    have hraw : seg ∈ rawComponents s := (List.mem_filter.mp hseg).1
    have hsplit : seg ∈ splitSlash s.data := (List.mem_filter.mp hraw).1
    exact mem_of_mem_splitSlash hsplit (by rw [hdd]; exact List.mem_cons_self '.' ['.'])

theorem browse_collect_eq (pv : String → Option JsonVal)
    (fv : JsonVal → Option FileNode) (lines : List String) :
    browse_snapshot_collect pv fv lines =
      lines.filterMap (browseLineRecordSpec pv fv) := by
  induction lines with
  | nil => rfl
  | cons line rest ih =>
    rw [List.filterMap_cons]
    cases htrim : trimIsEmpty line with
    | true => simp [browse_snapshot_collect, browseLineRecordSpec, htrim, ih]
    | false =>
      cases hpv : pv line with
      | none => simp [browse_snapshot_collect, browseLineRecordSpec, htrim, hpv, ih]
      | some val =>
        cases hget : val.get "struct_type" with
        | none => simp [browse_snapshot_collect, browseLineRecordSpec, htrim, hpv, hget, ih]
        | some st =>
          cases hist : st.isStr "node" with
          | false =>
            simp [browse_snapshot_collect, browseLineRecordSpec, htrim, hpv, hget, hist, ih]
          | true =>
            cases hfv : fv val with
            | none =>
              simp [browse_snapshot_collect, browseLineRecordSpec, htrim, hpv, hget, hist, hfv, ih]
            | some node =>
              simp [browse_snapshot_collect, browseLineRecordSpec, htrim, hpv, hget, hist, hfv, ih]

theorem details_collect_eq (pn : String → Option FileNode) (lines : List String) :
    snapshot_details_collect pn lines =
      lines.filterMap (detailsLineRecordSpec pn) := by
  induction lines with
  | nil => rfl
  | cons line rest ih =>
    rw [List.filterMap_cons]
    cases htrim : trimIsEmpty line with
    | true => simp [snapshot_details_collect, detailsLineRecordSpec, htrim, ih]
    | false =>
      cases hpn : pn line with
      | none => simp [snapshot_details_collect, detailsLineRecordSpec, htrim, hpn, ih]
      | some node => simp [snapshot_details_collect, detailsLineRecordSpec, htrim, hpn, ih]

theorem includeArgPairs_eq_flatMap (ps : List String) :
    ps.flatMap (fun p => ["--include", p]) = includeArgPairs ps := by
  induction ps with
  | nil => rfl
  | cons p rest ih => simp [List.flatMap_cons, includeArgPairs, ih]

theorem validate_target_path_ok_or_error (fs : FsEnv) (t : String) :
    validate_target_path fs t = .ok t ∨
      ∃ e, validate_target_path fs t = .error e := by
  unfold validate_target_path
  split_ifs with h1 h2 h3
  · exact Or.inr ⟨_, rfl⟩
  · exact Or.inr ⟨_, rfl⟩
  · exact Or.inr ⟨_, rfl⟩
  · split
    · exact Or.inr ⟨_, rfl⟩
    · split
      · split_ifs with h4
        · exact Or.inr ⟨_, rfl⟩
        · exact Or.inl rfl
      · exact Or.inl rfl

/-! Claim theorems. -/

/-- C1 (counterexample): the claim asserts that a fatal marker in stderr
forces a fatal outcome regardless of exit status details, but on a zero exit
status the lenient classifier never inspects stderr: with stderr containing
\"wrong password\" and exit code 0, the outcome is plain success carrying
stdout. -/
theorem lenient_zero_exit_counterexample :
    is_fatal_restore_stderr "wrong password" = true ∧
    classify_restic_output .Lenient ⟨0, "stdout text", "wrong password"⟩ =
      .ok "stdout text" := by
  decide

/-- C1 (amended): restricted to runs whose exit status is non-zero, the
lenient classifier is fatal exactly on the fatal markers: with a marker in
stderr the outcome is a restore-failed error wrapping that stderr, and with
no marker the outcome is success whose returned text contains the original
stderr content verbatim. -/
theorem lenient_mode_classification (out : ProcOutput) (hnz : out.exit_code ≠ 0) :
    (is_fatal_restore_stderr out.stderr = true →
      classify_restic_output .Lenient out = .error (.RestoreFailed out.stderr)) ∧
    (is_fatal_restore_stderr out.stderr = false →
      classify_restic_output .Lenient out = .ok (restoredWithWarnings out.stderr) ∧
      strContainsSub (restoredWithWarnings out.stderr) out.stderr = true) := by
  constructor
  · intro hf
    simp [classify_restic_output, hnz, hf]
  · intro hf
    refine ⟨by simp [classify_restic_output, hnz, hf], ?_⟩
    unfold strContainsSub restoredWithWarnings
    rw [String.data_append]
    exact listContainsSub_append _ _

/-- C1 witness: both branches of the amended classification evaluated at
concrete non-zero-exit outputs. -/
theorem lenient_mode_classification_witness :
    classify_restic_output .Lenient ⟨1, "", "wrong password"⟩ =
      .error (.RestoreFailed "wrong password") ∧
    (classify_restic_output .Lenient ⟨1, "", "permission denied"⟩ =
      .ok (restoredWithWarnings "permission denied") ∧
     strContainsSub (restoredWithWarnings "permission denied") "permission denied" = true) :=
  ⟨(lenient_mode_classification ⟨1, "", "wrong password"⟩ (by decide)).1 (by decide),
   (lenient_mode_classification ⟨1, "", "permission denied"⟩ (by decide)).2 (by decide)⟩

/-- C2 (counterexample): a locator with a parent-directory component and no
recognised scheme is not always rejected with the path-traversal kind: with
an unrecognised colon scheme it is rejected as unsupported-protocol, and
with an embedded NUL byte it is rejected as invalid-path, both before the
component walk runs. -/
theorem locator_traversal_kind_counterexample :
    PathComp.parentDir ∈ pathComponents "a:b/../c" ∧
    valid_protocols.any (fun p => strStartsWith "a:b/../c" p) = false ∧
    validate_repository_path (fun _ => false) "a:b/../c" =
      .error (.UnsupportedProtocol protocolsJoined) ∧
    PathComp.parentDir ∈ pathComponents (String.mk ['.', '.', '/', Char.ofNat 0]) ∧
    validate_repository_path (fun _ => false) (String.mk ['.', '.', '/', Char.ofNat 0]) =
      .error .InvalidRepositoryPath := by
  decide

/-- C2 (amended): for every repository locator containing a parent-directory
path component, containing no NUL byte, and containing either no colon at
all or a leading C:/c: drive prefix (so the protocol branch is not taken),
validation rejects with the path-traversal error kind. -/
theorem locator_traversal_rejected (fs : FsEnv) (s : String)
    (hpd : PathComp.parentDir ∈ pathComponents s)
    (hnull : strContainsChar s nullChar = false)
    (hcol : strContainsChar s ':' = false ∨ strStartsWith s "C:" = true ∨
      strStartsWith s "c:" = true) :
    validate_repository_path fs s = .error .PathTraversal := by
  have htrim : trimIsEmpty s = false :=
    trimIsEmpty_eq_false_of_mem (dot_mem_of_parentDir_mem hpd) (by decide)
  have hcond : (strContainsChar s ':' && !strStartsWith s "C:" && !strStartsWith s "c:") = false := by
    rcases hcol with h | h | h <;> simp [h]
  have hany : (pathComponents s).any PathComp.isParentDir = true :=
    List.any_eq_true.mpr ⟨_, hpd, rfl⟩
  simp [validate_repository_path, htrim, hnull, hcond, hany]

/-- C2 witness: the amended rejection at a plain relative traversal and at a
drive-prefixed traversal. -/
theorem locator_traversal_rejected_witness :
    validate_repository_path (fun _ => false) "../x" = .error .PathTraversal ∧
    validate_repository_path (fun _ => false) "C:/../x" = .error .PathTraversal :=
  ⟨locator_traversal_rejected _ "../x" (by decide) (by decide) (Or.inl (by decide)),
   locator_traversal_rejected _ "C:/../x" (by decide) (by decide) (Or.inr (Or.inl (by decide)))⟩

/-- C3 (counterexample): when a scheme matches, the code requires the TOTAL
locator length to be at least 5 bytes, not the remainder after the scheme:
\"azure:\" has an empty remainder (0 < 5 characters after the scheme) yet is
accepted. -/
theorem locator_remainder_length_counterexample :
    strContainsChar "azure:" ':' = true ∧
    strStartsWith "azure:" "C:" = false ∧
    strStartsWith "azure:" "c:" = false ∧
    "azure:" ∈ valid_protocols ∧
    strStartsWith "azure:" "azure:" = true ∧
    utf8Len (strDrop "azure:" 6) < 5 ∧
    validate_repository_path (fun _ => false) "azure:" = .ok () := by
  decide

/-- C3 (amended): for every locator containing a colon, not starting with
the C:/c: drive prefix, and containing no NUL byte: if no allow-list scheme
is a prefix, validation rejects with unsupported-protocol reporting the
allow-list; if a scheme matches, the locator is rejected as
remote-path-too-short exactly when its total byte length is below 5, and
accepted otherwise. -/
theorem locator_scheme_allowlist (fs : FsEnv) (s : String)
    (hc : strContainsChar s ':' = true)
    (hC : strStartsWith s "C:" = false)
    (hcl : strStartsWith s "c:" = false)
    (hnull : strContainsChar s nullChar = false) :
    (valid_protocols.any (fun p => strStartsWith s p) = false →
      validate_repository_path fs s = .error (.UnsupportedProtocol protocolsJoined)) ∧
    (valid_protocols.any (fun p => strStartsWith s p) = true →
      (utf8Len s < 5 → validate_repository_path fs s = .error .RemotePathTooShort) ∧
      (5 ≤ utf8Len s → validate_repository_path fs s = .ok ())) := by
  have htrim : trimIsEmpty s = false :=
    trimIsEmpty_eq_false_of_mem (mem_of_strContainsChar hc) (by decide)
  have hcond : (strContainsChar s ':' && !strStartsWith s "C:" && !strStartsWith s "c:") = true := by
    simp [hc, hC, hcl]
  refine ⟨fun hno => ?_, fun hyes => ⟨fun hlen => ?_, fun hlen => ?_⟩⟩
  · simp [validate_repository_path, htrim, hnull, hcond, hno]
  · simp [validate_repository_path, htrim, hnull, hcond, hyes, hlen]
  · have hge : ¬ utf8Len s < 5 := by omega
    simp [validate_repository_path, htrim, hnull, hcond, hyes, hge]

/-- C3 witness: the amended behaviour at an unrecognised scheme, at a
matching scheme below the total-length bound, and at a matching scheme at
the bound. -/
theorem locator_scheme_allowlist_witness :
    validate_repository_path (fun _ => false) "foo:bar" =
      .error (.UnsupportedProtocol protocolsJoined) ∧
    validate_repository_path (fun _ => false) "s3:a" = .error .RemotePathTooShort ∧
    validate_repository_path (fun _ => false) "s3:ab" = .ok () :=
  ⟨(locator_scheme_allowlist _ "foo:bar" (by decide) (by decide) (by decide) (by decide)).1
     (by decide),
   ((locator_scheme_allowlist _ "s3:a" (by decide) (by decide) (by decide) (by decide)).2
     (by decide)).1 (by decide),
   ((locator_scheme_allowlist _ "s3:ab" (by decide) (by decide) (by decide) (by decide)).2
     (by decide)).2 (by decide)⟩

/-- C4: snapshot-id validation accepts exactly the strings whose byte length
lies in [8,64] and whose characters are all ASCII hex digits; in particular
\"abc123\" is rejected as too short, \"zz112233\" as non-hex, and
\"a1b2c3d4\" is accepted. -/
theorem snapshot_id_accept_iff (fs : FsEnv) (s : String) :
    (validate_snapshot_id fs s = .ok () ↔
      8 ≤ utf8Len s ∧ utf8Len s ≤ 64 ∧ s.data.all isAsciiHexDigit = true) ∧
    validate_snapshot_id fs "abc123" = .error .SnapshotIdTooShort ∧
    validate_snapshot_id fs "zz112233" = .error .SnapshotIdNotHex ∧
    validate_snapshot_id fs "a1b2c3d4" = .ok () := by
  refine ⟨⟨fun h => ?_, fun h => ?_⟩, rfl, rfl, rfl⟩
  · simp only [validate_snapshot_id] at h
    split_ifs at h with h1 h2 h3 h4 h5
    all_goals simp at h
    refine ⟨by omega, by omega, ?_⟩
    cases hall : s.data.all isAsciiHexDigit
    · exact absurd (by simp [hall]) h5
    · rfl
  · obtain ⟨h8, h64, hall⟩ := h
    have hne : s.data ≠ [] := by
      intro hnil
      rw [show utf8Len s = 0 by simp [utf8Len, hnil]] at h8
      omega
    obtain ⟨c, rest, hcr⟩ := List.exists_cons_of_ne_nil hne
    have hhexc : isAsciiHexDigit c = true :=
      List.all_eq_true.mp hall c (by rw [hcr]; exact List.mem_cons_self c rest)
    have htrim : trimIsEmpty s = false :=
      trimIsEmpty_eq_false_of_mem (by rw [hcr]; exact List.mem_cons_self c rest)
        (not_ws_of_hex hhexc)
    have hnull : strContainsChar s nullChar = false := by
      cases hsc : strContainsChar s nullChar
      · rfl
      · have hmem := mem_of_strContainsChar hsc
        have := List.all_eq_true.mp hall nullChar hmem
        exact absurd this (by decide)
    have h3 : ¬ utf8Len s < 8 := by omega
    have h4 : ¬ utf8Len s > 64 := by omega
    simp [validate_snapshot_id, htrim, hnull, h3, h4, hall]

/-- C5: both line-parsing operations return exactly the well-formed records
of the expected kind, in original line order, with malformed or
wrong-discriminator lines silently skipped and never aborting the batch:
each equals the filterMap of the per-line record classifier over the lines
of the response text, for every choice of the external serde_json decoding
functions. -/
theorem line_parsing_refines_filterMap
    (parse_value : String → Option JsonVal) (from_value : JsonVal → Option FileNode)
    (parse_node : String → Option FileNode) (output : String) :
    browse_snapshot_parse parse_value from_value output =
      (rustLines output).filterMap (browseLineRecordSpec parse_value from_value) ∧
    get_snapshot_details_parse parse_node output =
      (rustLines output).filterMap (detailsLineRecordSpec parse_node) :=
  ⟨browse_collect_eq parse_value from_value (rustLines output),
   details_collect_eq parse_node (rustLines output)⟩

/-- C6: the built invocation runs the resolved binary with argument vector
exactly \"-r\", the locator, then the operation arguments; the selective
restore argument list is the restore prelude followed by one
\"--include path\" pair per include path in caller order; and the password
reaches only the RESTIC_PASSWORD environment entry — the argument vector is
independent of it. -/
theorem subprocess_invocation_shape (restic_bin repo password password2 : String)
    (args : List String) (snapshot_id target : String) (include_paths : List String) :
    (build_restic_command restic_bin repo password args).program = restic_bin ∧
    (build_restic_command restic_bin repo password args).argv = "-r" :: repo :: args ∧
    (build_restic_command restic_bin repo password args).envs =
      [("RESTIC_PASSWORD", password)] ∧
    (build_restic_command restic_bin repo password2 args).argv =
      (build_restic_command restic_bin repo password args).argv ∧
    restore_selective_args snapshot_id target include_paths =
      ["restore", snapshot_id, "--target", target] ++ includeArgPairs include_paths := by
  refine ⟨rfl, rfl, rfl, rfl, ?_⟩
  simp only [restore_selective_args, includeArgPairs_eq_flatMap]

/-- C7 (counterexample): non-empty, non-absolute include paths with at most
three \"..\" occurrences are not always accepted: a whitespace-only string
is rejected as empty, and a NUL-carrying string is rejected as invalid;
with a NUL byte even four occurrences are not reported as
excessive-traversal. -/
theorem include_path_accept_counterexample :
    (" " : String) ≠ "" ∧ strHasRoot " " = false ∧ countMatches " " ".." ≤ 3 ∧
    validate_include_path (fun _ => false) " " = .error .EmptyIncludePath ∧
    String.mk ['a', Char.ofNat 0, 'b'] ≠ "" ∧
    strHasRoot (String.mk ['a', Char.ofNat 0, 'b']) = false ∧
    countMatches (String.mk ['a', Char.ofNat 0, 'b']) ".." ≤ 3 ∧
    validate_include_path (fun _ => false) (String.mk ['a', Char.ofNat 0, 'b']) =
      .error .InvalidIncludePath ∧
    3 < countMatches (String.mk ("........".data ++ [Char.ofNat 0])) ".." ∧
    validate_include_path (fun _ => false) (String.mk ("........".data ++ [Char.ofNat 0])) =
      .error .InvalidIncludePath := by
  decide

/-- C7 (amended): for every include path that is not whitespace-only,
contains no NUL byte, and is not absolute: four or more non-overlapping
occurrences of \"..\" are rejected as excessive-traversal, and three or
fewer are accepted. -/
theorem include_path_traversal_budget (fs : FsEnv) (s : String)
    (htrim : trimIsEmpty s = false)
    (hnull : strContainsChar s nullChar = false)
    (habs : strHasRoot s = false) :
    (3 < countMatches s ".." →
      validate_include_path fs s = .error .ExcessiveParentTraversal) ∧
    (countMatches s ".." ≤ 3 → validate_include_path fs s = .ok ()) := by
  constructor
  · intro h
    simp [validate_include_path, htrim, hnull, h]
  · intro h
    have h4 : ¬ 3 < countMatches s ".." := by omega
    simp [validate_include_path, htrim, hnull, h4, habs]

/-- C7 witness: the amended budget at four matches and at three matches. -/
theorem include_path_traversal_budget_witness :
    validate_include_path (fun _ => false) "../../../../x" =
      .error .ExcessiveParentTraversal ∧
    validate_include_path (fun _ => false) "a/../b/../c/../d" = .ok () :=
  ⟨(include_path_traversal_budget _ "../../../../x" (by decide) (by decide) (by decide)).1
     (by decide),
   (include_path_traversal_budget _ "a/../b/../c/../d" (by decide) (by decide) (by decide)).2
     (by decide)⟩

/-- C8: in strict mode, given a spawned subprocess, the call fails exactly
when the exit status is non-zero, every failure carries the full captured
stderr, and a zero exit returns the raw stdout unfiltered. -/
theorem strict_mode_classification (out : ProcOutput) :
    ((∃ e, classify_restic_output .Strict out = .error e) ↔ out.exit_code ≠ 0) ∧
    (out.exit_code ≠ 0 →
      classify_restic_output .Strict out = .error (.ResticError out.stderr)) ∧
    (out.exit_code = 0 → classify_restic_output .Strict out = .ok out.stdout) := by
  by_cases h : out.exit_code = 0
  · refine ⟨⟨fun ⟨e, he⟩ => ?_, fun hn => absurd h hn⟩,
      fun hn => absurd h hn, fun _ => by simp [classify_restic_output, h]⟩
    simp [classify_restic_output, h] at he
  · exact ⟨⟨fun _ => h,
      fun _ => ⟨AppError.ResticError out.stderr, by simp [classify_restic_output, h]⟩⟩,
      fun _ => by simp [classify_restic_output, h], fun h0 => absurd h0 h⟩

/-- C8 witness: the strict classification evaluated at a failing and at a
succeeding concrete output. -/
theorem strict_mode_classification_witness :
    classify_restic_output .Strict ⟨3, "o", "e"⟩ = .error (.ResticError "e") ∧
    classify_restic_output .Strict ⟨0, "o", "e"⟩ = .ok "o" :=
  ⟨(strict_mode_classification ⟨3, "o", "e"⟩).2.1 (by decide),
   (strict_mode_classification ⟨0, "o", "e"⟩).2.2 rfl⟩

/-- C9 (counterexample): target-path validation is not a function of its
input string alone: on the same input it accepts in an environment where
the parent directory exists and rejects with missing-parent where it does
not. -/
theorem target_path_env_dependence_counterexample :
    validate_target_path (fun _ => true) "/nonexistent_root_xyz/out" =
      .ok "/nonexistent_root_xyz/out" ∧
    validate_target_path (fun _ => false) "/nonexistent_root_xyz/out" =
      .error (.ParentDirectoryNotFound "/nonexistent_root_xyz") ∧
    validate_target_path (fun _ => true) "/nonexistent_root_xyz/out" ≠
      validate_target_path (fun _ => false) "/nonexistent_root_xyz/out" := by
  decide

/-- C9 (amended): every validator except target-path is a pure function of
its input string alone: in any two filesystem environments the repository
locator, snapshot id, include path, repo id and password validators return
the same verdict; target-path validation additionally consults the
environment's parent-existence oracle. -/
theorem validators_environment_independent (e1 e2 : FsEnv) (s : String) :
    validate_repository_path e1 s = validate_repository_path e2 s ∧
    validate_snapshot_id e1 s = validate_snapshot_id e2 s ∧
    validate_include_path e1 s = validate_include_path e2 s ∧
    validate_repo_id e1 s = validate_repo_id e2 s ∧
    validate_password e1 s = validate_password e2 s :=
  ⟨rfl, rfl, rfl, rfl, rfl⟩

/-- C10: target-path validation performs no normalization: whenever it
accepts, the returned path is the input string verbatim. -/
theorem target_path_returned_verbatim (fs : FsEnv) (t r : String)
    (h : validate_target_path fs t = .ok r) :
    validate_target_path fs t = .ok t := by
  rcases validate_target_path_ok_or_error fs t with hok | ⟨e, he⟩
  · exact hok
  · rw [he] at h
    exact Except.noConfusion h

/-- C10 witness: an accepted path containing a \".\" component and a
repeated separator is returned with both preserved. -/
theorem target_path_returned_verbatim_witness :
    validate_target_path (fun _ => true) "/a/./b//c" = .ok "/a/./b//c" :=
  target_path_returned_verbatim _ "/a/./b//c" "/a/./b//c" (by decide)

end ResticRestore
